import Mathlib

/-!
# lisafs: the Mount and Channel RPC handlers

A shallow embedding of `pkg/lisafs/handlers.go` (`MountHandler`,
`ChannelHandler`) and of the echo handler of `pkg/lisafs/connection_test.go`
(`dynamicMsgHandler`), with the properties the specification states about them.

Conventions of the embedding:

* a Go `string` / `[]byte` is a list of bytes, each byte a natural number;
* a Go `(uint32, error)` result is a pair `Nat × Option GoError`, `none` being
  the `nil` error;
* `uint32(x)` is `x % 2 ^ 32`;
* the mutable objects a handler touches (the `Connection`, the `Communicator`
  that received the request, the descriptor table of the process, the log) are
  the fields of one `State` record that the handler takes and returns;
* the collaborators whose code is not part of `handlers.go` (the `ServerImpl`
  interface, `Connection.createChannel`, `Communicator.AddDonationFD`, the
  generated marshalling code) are the fields of an `Env` record.
-/

namespace Lisafs

/-! ## Go strings and the two path functions used by `MountHandler` -/

/-- A Go string: a sequence of bytes. -/
abbrev GoString := List Nat

/-- The byte `/`. -/
def slash : Nat := 47

/-- The byte `.`. -/
def dot : Nat := 46

/-- The inner loop of the `..` case of Go's `path.Clean`:
`for out.w > dotdot && out.index(out.w) != '/' { out.w-- }`, started at write
index `w`; the result is the final write index. `buf` is the content written so
far. -/
def backtrack (buf : List Nat) (dotdot : Nat) : Nat → Nat
  | 0 => 0
  | w + 1 => if dotdot < w + 1 ∧ buf.getD (w + 1) 0 ≠ slash then backtrack buf dotdot w else w + 1

/-- The main loop `for r < n { switch ... }` of Go's `path.Clean`. `rest` is the
unread part `path[r:]`, `out` the content written so far (`out.w` is its length),
`dotdot` the index where `..` must stop. Every round consumes at least one byte
of `rest`; the first argument bounds the number of rounds. -/
def cleanLoop (rooted : Bool) : Nat → List Nat → List Nat → Nat → List Nat
  | 0, _, out, _ => out
  | _ + 1, [], out, _ => out
  | fuel + 1, b :: rest, out, dotdot =>
    if b = slash then
      -- empty path element
      cleanLoop rooted fuel rest out dotdot
    else if b = dot ∧ (rest = [] ∨ rest.head? = some slash) then
      -- . element
      cleanLoop rooted fuel rest out dotdot
    else if b = dot ∧ rest.head? = some dot ∧
        (rest.tail = [] ∨ rest.tail.head? = some slash) then
      -- .. element: remove to last /
      if dotdot < out.length then
        cleanLoop rooted fuel rest.tail
          (out.take (backtrack out dotdot (out.length - 1))) dotdot
      else if !rooted then
        let out1 := (if 0 < out.length then out ++ [slash] else out) ++ [dot, dot]
        cleanLoop rooted fuel rest.tail out1 out1.length
      else
        cleanLoop rooted fuel rest.tail out dotdot
    else
      -- real path element: add slash if needed, then copy the element
      let out1 :=
        if (rooted && out.length != 1) || (!rooted && out.length != 0) then out ++ [slash]
        else out
      cleanLoop rooted fuel ((b :: rest).dropWhile (fun x => x != slash))
        (out1 ++ (b :: rest).takeWhile (fun x => x != slash)) dotdot

/-- Go's `path.Clean` (package `path` of the standard library), called at
`handlers.go:40`. -/
def path.Clean (p : GoString) : GoString :=
  if p = [] then [dot]
  else
    let rooted : Bool := p.head? = some slash
    let out :=
      if rooted then cleanLoop rooted p.length p.tail [slash] 1
      else cleanLoop rooted p.length p [] 0
    if out.length = 0 then [dot] else out

/-- Go's `filepath.IsAbs` on Unix: `strings.HasPrefix(path, "/")`, called at
`handlers.go:41`. -/
def filepath.IsAbs (p : GoString) : Bool :=
  p.head? = some slash

/-- Go's conversion `uint32(x)` of a non-negative `int`. -/
def uint32 (x : Nat) : Nat := x % 2 ^ 32

/-! ## Errors, messages and the state the handlers act on -/

/-- A Go `error` value that is not `nil`. `errno n` is a `unix.Errno`,
`shutdownError` a value of dynamic type `flipcall.ShutdownError`, `other n` any
other error. -/
inductive GoError where
  | errno (n : Nat)
  | shutdownError
  | other (n : Nat)
  deriving DecidableEq, Repr

/-- `unix.EBADF`. -/
def unix.EBADF : GoError := .errno 9
/-- `unix.EBUSY`. -/
def unix.EBUSY : GoError := .errno 16
/-- `unix.EINVAL`. -/
def unix.EINVAL : GoError := .errno 22
/-- `unix.EMFILE`. -/
def unix.EMFILE : GoError := .errno 24
/-- `unix.EOPNOTSUPP`. -/
def unix.EOPNOTSUPP : GoError := .errno 95

/-- The type assertion `_, ok := err.(flipcall.ShutdownError)` of
`handlers.go:79`. -/
def isShutdownError : GoError → Bool
  | .shutdownError => true
  | _ => false

/-- A message identifier (`lisafs.MID`). -/
abbrev MID := Nat

/-- Go's conversion `uint64(x)` of a non-negative `int`. -/
def uint64 (x : Nat) : Nat := x % 2 ^ 64

/-- The fields of `MountReq` that `MountHandler` reads. -/
structure MountReq where
  MountPath : GoString
  deriving DecidableEq, Repr

/-- The response `MountResp` as built at `handlers.go:57-61`. `Inode` is the
type of root handles. -/
structure MountResp (Inode : Type) where
  Root : Inode
  SupportedMs : List MID
  MaxMessageSize : Nat
  deriving DecidableEq, Repr

/-- The response `ChannelResp` as built at `handlers.go:100-103`. -/
structure ChannelResp where
  dataOffset : Int
  dataLength : Nat
  deriving DecidableEq, Repr

/-- The fields of `flipcall.PacketWindowDescriptor` that `ChannelHandler`
reads. -/
structure PacketWindowDescriptor where
  FD : Nat
  Offset : Int
  Length : Nat
  deriving DecidableEq, Repr

/-- Modelled from the spec: the marshalling code of a message type, which is not
in the sources. Every request/response type supports (a) computing its exact
serialized byte length, (b) serializing itself into a buffer of that length,
(c) deserializing itself from a buffer. -/
structure Marshallable (α : Type) where
  SizeBytes : α → Nat
  MarshalBytes : α → List Nat
  UnmarshalBytes : List Nat → α

/-- A line written by `log.Warningf`, one constructor per call in
`handlers.go` (lines 42, 47 and 80). -/
inductive Warning where
  | mountPathNotAbsolute (mountPath : GoString)
  | alreadyMounted (mountPath : GoString)
  | serviceFailed (ch : Nat) (err : GoError)
  deriving DecidableEq, Repr

/-- Everything mutable that the handlers read or write. `σ` is the state of the
server implementation behind `c.serverImpl`. A channel (`*channel`) is named by a
number, a file descriptor is a number. -/
structure State (σ : Type) where
  /-- The flag `c.mounted`. -/
  mounted : Bool
  /-- The state of `c.serverImpl`. -/
  impl : σ
  /-- The mount paths `serverImpl.Mount` was called for, oldest first. -/
  mountCalls : List GoString
  /-- The counter of the wait group `c.activeWg`. -/
  activeWg : Int
  /-- The channels for which a service goroutine was started, oldest first. -/
  tasks : List Nat
  /-- The channels on which `shutdown` was called. -/
  shutdownChans : List Nat
  /-- The payload buffer of the communicator `comm`. -/
  buf : List Nat
  /-- The descriptors added to `comm` for donation, in the order added. -/
  donations : List Nat
  /-- The descriptors open in the process. -/
  openFDs : List Nat
  /-- The number of descriptors the process may have (`RLIMIT_NOFILE`). -/
  fdLimit : Nat
  /-- The identifiers whose handler the dispatcher invoked, oldest first. -/
  handlerCalls : List MID
  /-- The warnings logged, oldest first. -/
  log : List Warning
  deriving DecidableEq, Repr

/-- The collaborators of the handlers whose code is not in `handlers.go`:
the `ServerImpl` interface (`Mount`, `MaxMessageSize`), the connection manager
(`getServer`), the methods `supportedMessages` and `createChannel` of
`Connection`, the outcome of `Communicator.AddDonationFD`, and the marshalling
code of the three message types. -/
structure Env (σ Inode Srv : Type) where
  /-- `c.serverImpl.Mount(c, server)`: the root handle or an error, and the new
  state of the implementation. -/
  Mount : σ → Srv → Except GoError Inode × σ
  /-- `c.serverImpl.MaxMessageSize()`, a `uint32`. -/
  MaxMessageSize : σ → Nat
  /-- `c.cm.getServer(mountPath)`. -/
  getServer : GoString → Srv
  /-- `c.supportedMessages()`. -/
  supportedMessages : List MID
  /-- `c.createChannel(maxMessageSize)`: the channel, its packet window
  descriptor and the client end of its descriptor socket, or an error. -/
  createChannel : Nat → State σ → Except GoError (Nat × PacketWindowDescriptor × Nat) × State σ
  /-- The error, if any, with which the communicator refuses a descriptor. -/
  donationError : State σ → Nat → Option GoError
  mountReq : Marshallable MountReq
  mountResp : Marshallable (MountResp Inode)
  channelResp : Marshallable ChannelResp

/-- A handler: it takes the state (connection and communicator) and the payload
length and returns the Go result `(uint32, error)` with the new state
(`RPCHandler`, `handlers.go:33`). -/
abbrev RPCHandler (σ : Type) := State σ → Nat → (Nat × Option GoError) × State σ

section Operations

variable {σ Inode Srv : Type}

/-- The call `log.Warningf(...)`. -/
def log.Warningf (c : State σ) (w : Warning) : State σ :=
  { c with log := c.log ++ [w] }

/-- Modelled from the spec: `Communicator.PayloadBuf(n)`, not in the sources. It
returns a view of `n` bytes of the communicator's buffer, the same buffer on
every call; a buffer shorter than `n` is extended with zero bytes. -/
def PayloadBuf (c : State σ) (n : Nat) : List Nat :=
  (c.buf ++ List.replicate (n - c.buf.length) 0).take n

/-- The statement `x.MarshalBytes(comm.PayloadBuf(n))`, where `bytes` is the
serialization of `x`: the bytes are written at the start of the view; the rest
of the buffer is kept. -/
def marshalInto (c : State σ) (n : Nat) (bytes : List Nat) : State σ :=
  { c with buf := (bytes ++ (PayloadBuf c n).drop bytes.length).take n ++ c.buf.drop n }

/-- Modelled from the spec: `Communicator.AddDonationFD(fd)`, not in the
sources. It attaches a descriptor to be transferred to the peer with the next
outgoing frame, or returns an error. -/
def AddDonationFD (env : Env σ Inode Srv) (c : State σ) (fd : Nat) :
    Option GoError × State σ :=
  match env.donationError c fd with
  | some err => (some err, c)
  | none => (none, { c with donations := c.donations ++ [fd] })

/-- The system call `dup(2)` behind `unix.Dup`: the lowest descriptor not in
use, `EBADF` when `fd` is not open, `EMFILE` when the table is full. -/
def unix.Dup (c : State σ) (fd : Nat) : Except GoError Nat × State σ :=
  if fd ∈ c.openFDs then
    match (List.range c.fdLimit).find? (fun n => decide (n ∉ c.openFDs)) with
    | some n => (.ok n, { c with openFDs := n :: c.openFDs })
    | none => (.error unix.EMFILE, c)
  else (.error unix.EBADF, c)

/-- The system call `close(2)` behind `unix.Close`; the handler ignores its
result. -/
def unix.Close (c : State σ) (fd : Nat) : State σ :=
  { c with openFDs := c.openFDs.filter (fun n => n != fd) }

/-- Modelled from the spec: `channel.shutdown()`, not in the sources. It marks
the channel for teardown and is idempotent. -/
def channel.shutdown (c : State σ) (ch : Nat) : State σ :=
  if ch ∈ c.shutdownChans then c else { c with shutdownChans := c.shutdownChans ++ [ch] }

/-! ## The handlers of `handlers.go` -/

/-- `MountHandler` (`handlers.go:36-65`). -/
def MountHandler (env : Env σ Inode Srv) (c : State σ) (payloadLen : Nat) :
    (Nat × Option GoError) × State σ :=
  let req := env.mountReq.UnmarshalBytes (PayloadBuf c payloadLen)
  let mountPath := path.Clean req.MountPath
  if !filepath.IsAbs mountPath then
    ((0, some unix.EINVAL), log.Warningf c (.mountPathNotAbsolute mountPath))
  else if c.mounted then
    ((0, some unix.EBUSY), log.Warningf c (.alreadyMounted mountPath))
  else
    let c1 := { c with mountCalls := c.mountCalls ++ [mountPath] }
    match env.Mount c1.impl (env.getServer mountPath) with
    | (.error err, impl1) => ((0, some err), { c1 with impl := impl1 })
    | (.ok root, impl1) =>
      let c2 := { c1 with impl := impl1, mounted := true }
      let resp : MountResp Inode :=
        { Root := root
          SupportedMs := env.supportedMessages
          MaxMessageSize := env.MaxMessageSize c2.impl }
      let respPayloadLen := uint32 (env.mountResp.SizeBytes resp)
      ((respPayloadLen, none), marshalInto c2 respPayloadLen (env.mountResp.MarshalBytes resp))

/-- The body of the goroutine started at `handlers.go:76-84`, run once
`c.service(ch)` has returned `res` (`none` is `nil`). -/
def serviceTask (ch : Nat) (res : Option GoError) (c : State σ) : State σ :=
  let c1 :=
    match res with
    | some err => if !isShutdownError err then log.Warningf c (.serviceFailed ch err) else c
    | none => c
  -- c.activeWg.Done()
  { c1 with activeWg := c1.activeWg - 1 }

/-- `ChannelHandler` (`handlers.go:68-107`). Starting the goroutine is recorded
in `tasks`; its body is `serviceTask`. -/
def ChannelHandler (env : Env σ Inode Srv) (c : State σ) (_payloadLen : Nat) :
    (Nat × Option GoError) × State σ :=
  match env.createChannel (env.MaxMessageSize c.impl) c with
  | (.error err, c1) => ((0, some err), c1)
  | (.ok (ch, desc, fdSock), c1) =>
    -- c.activeWg.Add(1); go func() { ... }()
    let c2 := { c1 with activeWg := c1.activeWg + 1, tasks := c1.tasks ++ [ch] }
    match unix.Dup c2 desc.FD with
    | (.error err, c3) =>
      let c4 := unix.Close c3 fdSock
      let c5 := channel.shutdown c4 ch
      ((0, some err), c5)
    | (.ok clientDataFD, c3) =>
      match AddDonationFD env c3 clientDataFD with
      | (some err, c4) => ((0, some err), c4)
      | (none, c4) =>
        match AddDonationFD env c4 fdSock with
        | (some err, c5) => ((0, some err), c5)
        | (none, c5) =>
          let resp : ChannelResp :=
            { dataOffset := desc.Offset, dataLength := uint64 desc.Length }
          let respLen := uint32 (env.channelResp.SizeBytes resp)
          ((respLen, none), marshalInto c5 respLen (env.channelResp.MarshalBytes resp))

/-- Modelled from the spec: the guarantee of a successful
`Connection.createChannel(maxMessageSize)`, which is not in the sources. The
shared memory region it allocates is sized for the maximum message size: its
length, a Go `int`, is at least that size. The control descriptor it returns is
an open descriptor of the process. It is not given the communicator, so the
descriptors queued for donation are as before. `c` is the state before the call,
`c1` the state after it. -/
def createChannelOK (maxMessageSize : Nat) (desc : PacketWindowDescriptor) (fdSock : Nat)
    (c c1 : State σ) : Bool :=
  decide (maxMessageSize ≤ desc.Length) && decide (desc.Length < 2 ^ 63) &&
    decide (fdSock ∈ c1.openFDs) && decide (c1.donations = c.donations)

/-! ## The echo handler of `connection_test.go` -/

/-- `dynamicMsgHandler` (`connection_test.go:114-122`); `m` is the marshalling
code of `lisafs.MsgDynamic`. -/
def dynamicMsgHandler {MsgDynamic : Type} (m : Marshallable MsgDynamic) (c : State σ)
    (payloadLen : Nat) : (Nat × Option GoError) × State σ :=
  let req := m.UnmarshalBytes (PayloadBuf c payloadLen)
  -- Just echo back the message.
  let respPayloadLen := uint32 (m.SizeBytes req)
  ((respPayloadLen, none), marshalInto c respPayloadLen (m.MarshalBytes req))

/-- `P9Version` as used by `versionHandler`. -/
structure P9Version where
  MSize : Nat
  Version : GoString
  deriving DecidableEq, Repr

/-- The string "9P2000.L.Google.11". -/
def versionString : GoString :=
  [57, 80, 50, 48, 48, 48, 46, 76, 46, 71, 111, 111, 103, 108, 101, 46, 49, 49]

/-- `versionHandler` (`connection_test.go:156-170`); `m` is the marshalling code
of `lisafs.P9Version`. -/
def versionHandler (m : Marshallable P9Version) (c : State σ) (payloadLen : Nat) :
    (Nat × Option GoError) × State σ :=
  let rv := m.UnmarshalBytes (PayloadBuf c payloadLen)
  let sv : P9Version := { MSize := rv.MSize, Version := versionString }
  let respPayloadLen := uint32 (m.SizeBytes sv)
  ((respPayloadLen, none), marshalInto c respPayloadLen (m.MarshalBytes sv))

/-- The handler table `handlers` of `connection_test.go:32-37`, an array literal
with keyed elements: its length is one more than the largest key and the
elements without a key are `nil`. `Mount` and `Channel` are the identifiers
`lisafs.Mount` and `lisafs.Channel`, declared outside the sources. -/
def handlers {MsgDynamic : Type} (Mount Channel : MID) (env : Env σ Inode Srv)
    (dyn : Marshallable MsgDynamic) (ver : Marshallable P9Version) :
    List (Option (RPCHandler σ)) :=
  let dynamicMsgID := Channel + 1
  let versionMsgID := dynamicMsgID + 1
  (List.range (max Mount versionMsgID + 1)).map fun i =>
    if i = Mount then some (MountHandler env)
    else if i = Channel then some (ChannelHandler env)
    else if i = dynamicMsgID then some (dynamicMsgHandler dyn)
    else if i = versionMsgID then some (versionHandler ver)
    else none

/-! ## Dispatch and the client call -/

/-- The response frame sent back for a request: the identifier and payload
length of a successful response, or the error response. -/
inductive Response where
  | ok (m : MID) (payloadLen : Nat)
  | error (err : GoError)
  deriving DecidableEq, Repr

/-- Modelled from the spec: the dispatch step of `Connection`, not in the
sources. Look up the operation identifier in the handler table; if absent or out
of range, respond with the unsupported-operation condition without invoking any
handler; otherwise invoke the handler with the connection, the communicator and
the declared payload length; the handler returns either a response payload
length or an error, which is sent as the error response. -/
def handleMsg (table : List (Option (RPCHandler σ))) (c : State σ) (m : MID)
    (payloadLen : Nat) : Response × State σ :=
  match table.get? m with
  | some (some handler) =>
    match handler { c with handlerCalls := c.handlerCalls ++ [m] } payloadLen with
    | ((respPayloadLen, none), c1) => (.ok m respPayloadLen, c1)
    | ((_, some err), c1) => (.error err, c1)
  | _ => (.error unix.EOPNOTSUPP, c)

/-- Modelled from the spec: `Client.SndRcvMessage`, not in the sources. It
serializes the request (`request` is what `reqMarshal` writes) into the
communicator's buffer, sends it, waits for the response and deserializes it with
`respUnmarshal`; an error response is returned to the caller as it is. The
result is the returned error and the deserialized response, with the state of
the server side. -/
def SndRcvMessage {β : Type} (table : List (Option (RPCHandler σ))) (c : State σ) (m : MID)
    (payloadLen : Nat) (request : List Nat) (respUnmarshal : List Nat → β) :
    Option GoError × Option β × State σ :=
  match handleMsg table (marshalInto c payloadLen request) m payloadLen with
  | (.error err, c1) => (some err, none, c1)
  | (.ok _ respPayloadLen, c1) => (none, some (respUnmarshal (PayloadBuf c1 respPayloadLen)), c1)

end Operations

/-! ## The test server of `connection_test.go` and sample collaborators

These instantiate the environment at concrete values. -/

/-- The root handle `lisafs.Inode{ControlFD: 1}` of the test server. -/
structure TestInode where
  ControlFD : Nat
  deriving DecidableEq, Repr

/-- `testServer.Mount` (`connection_test.go:48-51`): it stores the server in the
field `server` and returns the handle with `ControlFD: 1`. -/
def testServer.Mount (_s : Option GoString) (server : GoString) :
    Except GoError TestInode × Option GoString :=
  (.ok { ControlFD := 1 }, some server)

/-- A server implementation whose `Mount` fails with `EIO` on its first call and
succeeds afterwards. Its state counts the calls. -/
def retryServer.Mount (calls : Nat) (_server : GoString) : Except GoError TestInode × Nat :=
  if calls = 0 then (.error (.errno 5), calls + 1) else (.ok { ControlFD := 1 }, calls + 1)

/-- A mount request serialized as the bytes of its path. -/
def sampleMountReq : Marshallable MountReq where
  SizeBytes r := r.MountPath.length
  MarshalBytes r := r.MountPath
  UnmarshalBytes b := { MountPath := b }

/-- A mount response serialized as the control descriptor of the root, the
maximum message size, the number of supported messages and these messages, one
byte each. -/
def sampleMountResp : Marshallable (MountResp TestInode) where
  SizeBytes r := 3 + r.SupportedMs.length
  MarshalBytes r := r.Root.ControlFD :: r.MaxMessageSize :: r.SupportedMs.length :: r.SupportedMs
  UnmarshalBytes b :=
    { Root := { ControlFD := b.getD 0 0 }, MaxMessageSize := b.getD 1 0,
      SupportedMs := (b.drop 3).take (b.getD 2 0) }

/-- A channel response serialized as two bytes. -/
def sampleChannelResp : Marshallable ChannelResp where
  SizeBytes _ := 2
  MarshalBytes r := [r.dataOffset.toNat, r.dataLength]
  UnmarshalBytes b := { dataOffset := Int.ofNat (b.getD 0 0), dataLength := b.getD 1 0 }

/-- A message of variable size serialized as its bytes. -/
def sampleDynamic : Marshallable (List Nat) where
  SizeBytes x := x.length
  MarshalBytes x := x
  UnmarshalBytes b := b

/-- A `P9Version` serialized as its size followed by the version string. -/
def sampleVersion : Marshallable P9Version where
  SizeBytes v := 1 + v.Version.length
  MarshalBytes v := v.MSize :: v.Version
  UnmarshalBytes b := { MSize := b.getD 0 0, Version := b.drop 1 }

/-- A `createChannel` that gives the channel the next free number, a window of
`maxMessageSize + 16` bytes behind the regions already handed out in the memory
file (descriptor 3), and as control descriptor the lowest descriptor not in
use. It fails with `ENOMEM` once 2 channels exist. -/
def sampleCreateChannel {σ : Type} (maxMessageSize : Nat) (c : State σ) :
    Except GoError (Nat × PacketWindowDescriptor × Nat) × State σ :=
  if 2 ≤ c.tasks.length then (.error (.errno 12), c)
  else
    match (List.range c.fdLimit).find? (fun n => decide (n ∉ c.openFDs)) with
    | none => (.error unix.EMFILE, c)
    | some fdSock =>
      (.ok (c.tasks.length,
          { FD := 3, Offset := Int.ofNat (c.tasks.length * (maxMessageSize + 16)),
            Length := maxMessageSize + 16 },
          fdSock),
        { c with openFDs := fdSock :: c.openFDs })

/-- The environment of the test server: `testServer` behind `c.serverImpl`, a
maximum message size of 64 bytes, the server object named by its mount path, a
communicator that accepts every descriptor. -/
def testEnv : Env (Option GoString) TestInode GoString where
  Mount := testServer.Mount
  MaxMessageSize _ := 64
  getServer p := p
  supportedMessages := [1, 2, 3, 4]
  createChannel := sampleCreateChannel
  donationError _ _ := none
  mountReq := sampleMountReq
  mountResp := sampleMountResp
  channelResp := sampleChannelResp

/-- The environment `testEnv` with the server implementation `retryServer`. -/
def retryEnv : Env Nat TestInode GoString where
  Mount := retryServer.Mount
  MaxMessageSize _ := 64
  getServer p := p
  supportedMessages := [1, 2, 3, 4]
  createChannel := sampleCreateChannel
  donationError _ _ := none
  mountReq := sampleMountReq
  mountResp := sampleMountResp
  channelResp := sampleChannelResp

/-- The environment `testEnv` with a communicator that refuses every descriptor
with `EBADF`. -/
def refusingEnv : Env (Option GoString) TestInode GoString :=
  { testEnv with donationError := fun _ _ => some unix.EBADF }

/-- The environment `testEnv` with a communicator that accepts one descriptor
and refuses the next ones with `EBADF`. -/
def refusingSecondEnv : Env (Option GoString) TestInode GoString :=
  { testEnv with donationError := fun c _ => if c.donations = [] then none else some unix.EBADF }

/-- A fresh connection: not mounted, no channel, the descriptors 0 to 3 open
(3 is the memory file), at most 16 descriptors, the payload buffer holding
`request`. -/
def freshState {σ : Type} (impl : σ) (request : List Nat) : State σ where
  mounted := false
  impl := impl
  mountCalls := []
  activeWg := 1
  tasks := []
  shutdownChans := []
  buf := request
  donations := []
  openFDs := [0, 1, 2, 3]
  fdLimit := 16
  handlerCalls := []
  log := []

/-! ### Facts about `path.Clean` -/

/-- Values of `path.Clean`: "" gives ".", "/" gives "/", "a/../b" gives "b",
"/../a" gives "/a", "a//b/./c/.." gives "a/b", "../../a" is unchanged,
"abc/def/../../.." gives "..", "/a/b/../../.." gives "/", "./" gives ".". -/
theorem Clean_values :
    path.Clean [] = [46] ∧
    path.Clean [47] = [47] ∧
    path.Clean [97, 47, 46, 46, 47, 98] = [98] ∧
    path.Clean [47, 46, 46, 47, 97] = [47, 97] ∧
    path.Clean [97, 47, 47, 98, 47, 46, 47, 99, 47, 46, 46] = [97, 47, 98] ∧
    path.Clean [46, 46, 47, 46, 46, 47, 97] = [46, 46, 47, 46, 46, 47, 97] ∧
    path.Clean [97, 98, 99, 47, 100, 101, 102, 47, 46, 46, 47, 46, 46, 47, 46, 46] = [46, 46] ∧
    path.Clean [47, 97, 47, 98, 47, 46, 46, 47, 46, 46, 47, 46, 46] = [47] ∧
    path.Clean [46, 47] = [46] := by
  decide

theorem backtrack_ge (buf : List Nat) (dotdot : Nat) :
    ∀ w, dotdot ≤ w → dotdot ≤ backtrack buf dotdot w := by
  intro w
  induction w with
  | zero => intro h; simpa [backtrack] using h
  | succ w ih =>
    intro h
    unfold backtrack
    split
    · next hc => exact ih (Nat.lt_succ_iff.mp hc.1)
    · exact h

theorem length_dropWhile_le (p : Nat → Bool) (l : List Nat) :
    (l.dropWhile p).length ≤ l.length := by
  induction l with
  | nil => simp
  | cons a l ih =>
    simp only [List.dropWhile_cons]
    split
    · exact Nat.le_succ_of_le ih
    · exact Nat.le_refl _

/-- The bound on the number of rounds is never the reason `cleanLoop` stops: any
bound of at least the number of unread bytes gives the same result. -/
theorem cleanLoop_fuel (rooted : Bool) :
    ∀ (f1 f2 : Nat) (rest out : List Nat) (dotdot : Nat),
      rest.length ≤ f1 → rest.length ≤ f2 →
      cleanLoop rooted f1 rest out dotdot = cleanLoop rooted f2 rest out dotdot := by
  intro f1
  induction f1 with
  | zero =>
    intro f2 rest out dotdot h1 _
    have hr : rest = [] := List.length_eq_zero.mp (Nat.le_zero.mp h1)
    subst hr
    cases f2 <;> simp [cleanLoop]
  | succ f1 ih =>
    intro f2 rest out dotdot h1 h2
    cases rest with
    | nil => cases f2 <;> simp [cleanLoop]
    | cons b rest =>
      cases f2 with
      | zero => simp at h2
      | succ f2 =>
        have h1r : rest.length ≤ f1 := by simpa using h1
        have h2r : rest.length ≤ f2 := by simpa using h2
        have ht1 : rest.tail.length ≤ f1 := by
          have := List.length_tail rest
          omega
        have ht2 : rest.tail.length ≤ f2 := by
          have := List.length_tail rest
          omega
        simp only [cleanLoop]
        split
        · exact ih f2 rest out dotdot h1r h2r
        · split
          · exact ih f2 rest out dotdot h1r h2r
          · split
            · split
              · exact ih f2 _ _ _ ht1 ht2
              · split
                · exact ih f2 _ _ _ ht1 ht2
                · exact ih f2 _ _ _ ht1 ht2
            · next hb _ _ =>
              have hd : ((b :: rest).dropWhile (fun x => x != slash)).length ≤ rest.length := by
                have hbs : (b != slash) = true := by simpa using hb
                simp only [List.dropWhile_cons, hbs, if_true]
                exact length_dropWhile_le _ _
              exact ih f2 _ _ _ (Nat.le_trans hd h1r) (Nat.le_trans hd h2r)

theorem head?_take_of_pos (l : List Nat) (k : Nat) (hk : 1 ≤ k) :
    (l.take k).head? = l.head? := by
  cases l with
  | nil => simp
  | cons a l =>
    cases k with
    | zero => omega
    | succ k => simp

theorem head?_take_ne (l : List Nat) (k : Nat) (h : l.head? ≠ some slash) :
    (l.take k).head? ≠ some slash := by
  cases l with
  | nil => simp
  | cons a l =>
    cases k with
    | zero => simp
    | succ k => simpa using h

theorem head?_append_of_head? (l m : List Nat) (a : Nat) (h : l.head? = some a) :
    (l ++ m).head? = some a := by
  cases l with
  | nil => simp at h
  | cons b l => simpa using h

/-- On a rooted path the output of the main loop keeps its leading slash. -/
theorem cleanLoop_rooted_head :
    ∀ (fuel : Nat) (rest out : List Nat), out.head? = some slash →
      (cleanLoop true fuel rest out 1).head? = some slash := by
  intro fuel
  induction fuel with
  | zero => intro rest out h; simpa [cleanLoop] using h
  | succ fuel ih =>
    intro rest out h
    cases rest with
    | nil => simpa [cleanLoop] using h
    | cons b rest =>
      simp only [cleanLoop]
      split
      · exact ih _ _ h
      · split
        · exact ih _ _ h
        · split
          · split
            · apply ih
              rw [head?_take_of_pos _ _ (backtrack_ge out 1 (out.length - 1) (by omega))]
              exact h
            · simp only [Bool.not_true, Bool.false_eq_true, if_false]
              exact ih _ _ h
          · apply ih
            apply head?_append_of_head?
            split
            · exact head?_append_of_head? _ _ _ h
            · exact h

/-- On a path that is not rooted the output of the main loop never starts with a
slash. -/
theorem cleanLoop_unrooted_head :
    ∀ (fuel : Nat) (rest out : List Nat) (dotdot : Nat), out.head? ≠ some slash →
      (cleanLoop false fuel rest out dotdot).head? ≠ some slash := by
  intro fuel
  induction fuel with
  | zero => intro rest out dotdot h; simpa [cleanLoop] using h
  | succ fuel ih =>
    intro rest out dotdot h
    cases rest with
    | nil => simpa [cleanLoop] using h
    | cons b rest =>
      simp only [cleanLoop]
      split
      · exact ih _ _ _ h
      · split
        · exact ih _ _ _ h
        · split
          · split
            · exact ih _ _ _ (head?_take_ne _ _ h)
            · simp only [Bool.not_false, if_true]
              apply ih
              cases out with
              | nil => simp [dot, slash]
              | cons a out => simpa using h
          · next hb _ _ =>
            apply ih
            cases out with
            | nil =>
              have hbs : (b != slash) = true := by simpa using hb
              simp [List.takeWhile_cons, hbs]
              exact hb
            | cons a out =>
              have ha : a ≠ slash := by simpa using h
              split <;> simpa using ha

/-- The normalised path is absolute exactly when the path itself starts with a
slash: `filepath.IsAbs(path.Clean(p))` is `filepath.IsAbs(p)`. -/
theorem IsAbs_Clean (p : GoString) :
    filepath.IsAbs (path.Clean p) = filepath.IsAbs p := by
  cases p with
  | nil => simp [path.Clean, filepath.IsAbs, dot, slash]
  | cons a p =>
    by_cases ha : a = slash
    · subst ha
      have h := cleanLoop_rooted_head (p.length + 1) p [slash] rfl
      have hne : cleanLoop true (p.length + 1) p [slash] 1 ≠ [] := by
        intro h0
        rw [h0] at h
        simp at h
      simp [path.Clean, filepath.IsAbs, h, hne]
    · have h := cleanLoop_unrooted_head (p.length + 1) (a :: p) [] 0 (by simp)
      simp only [path.Clean, filepath.IsAbs, List.head?_cons, Option.some.injEq, ha,
        decide_False, List.length_cons, List.tail_cons, Bool.false_eq_true, if_false,
        reduceCtorEq]
      split
      · simp [dot, slash]
      · simpa using h

/-! ### The payload buffer -/

section Facts

variable {σ Inode Srv : Type}

theorem length_PayloadBuf (c : State σ) (n : Nat) : (PayloadBuf c n).length = n := by
  simp only [PayloadBuf, List.length_take, List.length_append, List.length_replicate]
  omega

/-- After `x.MarshalBytes(comm.PayloadBuf(n))` with a serialization of exactly
`n` bytes, `comm.PayloadBuf(n)` holds that serialization. -/
theorem PayloadBuf_marshalInto (c : State σ) (n : Nat) (bytes : List Nat)
    (h : bytes.length = n) : PayloadBuf (marshalInto c n bytes) n = bytes := by
  have hv : (PayloadBuf c n).drop bytes.length = [] := by
    apply List.drop_eq_nil_of_le
    rw [length_PayloadBuf, h]
  have hb : (marshalInto c n bytes).buf = bytes ++ c.buf.drop n := by
    simp only [marshalInto, hv, List.append_nil]
    rw [List.take_of_length_le (Nat.le_of_eq h)]
  simp only [PayloadBuf, hb, List.append_assoc]
  rw [List.take_append_of_le_length (Nat.le_of_eq h.symm)]
  exact List.take_of_length_le (Nat.le_of_eq h)

theorem uint32_of_lt (x : Nat) (h : x < 2 ^ 32) : uint32 x = x :=
  Nat.mod_eq_of_lt h

theorem uint64_of_lt (x : Nat) (h : x < 2 ^ 64) : uint64 x = x :=
  Nat.mod_eq_of_lt h

/-! ### `MountHandler`, path by path -/

/-- The path `handlers.go:41-44`: the normalised path is not absolute. -/
theorem MountHandler_notAbs (env : Env σ Inode Srv) (c : State σ) (payloadLen : Nat)
    (req : MountReq) (hreq : env.mountReq.UnmarshalBytes (PayloadBuf c payloadLen) = req)
    (hp : filepath.IsAbs (path.Clean req.MountPath) = false) :
    MountHandler env c payloadLen =
      ((0, some unix.EINVAL), log.Warningf c (.mountPathNotAbsolute (path.Clean req.MountPath))) := by
  simp [MountHandler, hreq, hp]

/-- The path `handlers.go:46-49`: the connection is already mounted. -/
theorem MountHandler_mounted (env : Env σ Inode Srv) (c : State σ) (payloadLen : Nat)
    (req : MountReq) (hreq : env.mountReq.UnmarshalBytes (PayloadBuf c payloadLen) = req)
    (hp : filepath.IsAbs (path.Clean req.MountPath) = true) (hm : c.mounted = true) :
    MountHandler env c payloadLen =
      ((0, some unix.EBUSY), log.Warningf c (.alreadyMounted (path.Clean req.MountPath))) := by
  simp [MountHandler, hreq, hp, hm]

/-- The path `handlers.go:51-54`: `serverImpl.Mount` fails. -/
theorem MountHandler_mountError (env : Env σ Inode Srv) (c : State σ) (payloadLen : Nat)
    (req : MountReq) (hreq : env.mountReq.UnmarshalBytes (PayloadBuf c payloadLen) = req)
    (hp : filepath.IsAbs (path.Clean req.MountPath) = true) (hm : c.mounted = false)
    (err : GoError) (impl1 : σ)
    (hM : env.Mount c.impl (env.getServer (path.Clean req.MountPath)) = (.error err, impl1)) :
    MountHandler env c payloadLen =
      ((0, some err),
        { c with mountCalls := c.mountCalls ++ [path.Clean req.MountPath], impl := impl1 }) := by
  simp [MountHandler, hreq, hp, hm, hM]

/-- The path `handlers.go:56-64`: `serverImpl.Mount` returns a root. -/
theorem MountHandler_success (env : Env σ Inode Srv) (c : State σ) (payloadLen : Nat)
    (req : MountReq) (hreq : env.mountReq.UnmarshalBytes (PayloadBuf c payloadLen) = req)
    (hp : filepath.IsAbs (path.Clean req.MountPath) = true) (hm : c.mounted = false)
    (root : Inode) (impl1 : σ)
    (hM : env.Mount c.impl (env.getServer (path.Clean req.MountPath)) = (.ok root, impl1))
    (resp : MountResp Inode)
    (hresp : resp = { Root := root, SupportedMs := env.supportedMessages,
                      MaxMessageSize := env.MaxMessageSize impl1 }) :
    MountHandler env c payloadLen =
      ((uint32 (env.mountResp.SizeBytes resp), none),
        marshalInto
          { c with mountCalls := c.mountCalls ++ [path.Clean req.MountPath], impl := impl1,
                   mounted := true }
          (uint32 (env.mountResp.SizeBytes resp)) (env.mountResp.MarshalBytes resp)) := by
  subst hresp
  simp [MountHandler, hreq, hp, hm, hM]

/-! ### `unix.Dup` and `ChannelHandler`, path by path -/

/-- A successful `dup` returns a descriptor that was not open and opens it. -/
theorem Dup_ok (c c1 : State σ) (fd n : Nat) (h : unix.Dup c fd = (.ok n, c1)) :
    fd ∈ c.openFDs ∧ n ∉ c.openFDs ∧ c1 = { c with openFDs := n :: c.openFDs } := by
  unfold unix.Dup at h
  split at h
  · next hfd =>
    split at h
    · next m hm =>
      have hn : m ∉ c.openFDs := by simpa using List.find?_some hm
      simp only [Prod.mk.injEq, Except.ok.injEq] at h
      obtain ⟨h1, h2⟩ := h
      subst h1
      exact ⟨hfd, hn, h2.symm⟩
    · simp at h
  · simp at h

/-- A failing `dup` changes nothing. -/
theorem Dup_error (c c1 : State σ) (fd : Nat) (err : GoError)
    (h : unix.Dup c fd = (.error err, c1)) : c1 = c := by
  unfold unix.Dup at h
  split at h
  · split at h
    · simp at h
    · simp only [Prod.mk.injEq] at h
      exact h.2.symm
  · simp only [Prod.mk.injEq] at h
    exact h.2.symm

/-- The path `handlers.go:69-72`: `createChannel` fails. -/
theorem ChannelHandler_createError (env : Env σ Inode Srv) (c c1 : State σ) (payloadLen : Nat)
    (err : GoError)
    (hc : env.createChannel (env.MaxMessageSize c.impl) c = (.error err, c1)) :
    ChannelHandler env c payloadLen = ((0, some err), c1) := by
  simp [ChannelHandler, hc]

/-- The path `handlers.go:86-91`: `unix.Dup` fails. -/
theorem ChannelHandler_dupError (env : Env σ Inode Srv) (c c1 : State σ) (payloadLen : Nat)
    (ch : Nat) (desc : PacketWindowDescriptor) (fdSock : Nat) (err : GoError) (c3 : State σ)
    (hc : env.createChannel (env.MaxMessageSize c.impl) c = (.ok (ch, desc, fdSock), c1))
    (hd : unix.Dup { c1 with activeWg := c1.activeWg + 1, tasks := c1.tasks ++ [ch] } desc.FD
      = (.error err, c3)) :
    ChannelHandler env c payloadLen =
      ((0, some err),
        channel.shutdown
          (unix.Close { c1 with activeWg := c1.activeWg + 1, tasks := c1.tasks ++ [ch] } fdSock)
          ch) := by
  have h3 := Dup_error _ _ _ _ hd
  subst h3
  simp [ChannelHandler, hc, hd]

/-- The path `handlers.go:94-96`: the first `AddDonationFD` fails. The state
returned is the state right after `unix.Dup`. -/
theorem ChannelHandler_firstDonationError (env : Env σ Inode Srv) (c c1 : State σ)
    (payloadLen : Nat) (ch : Nat) (desc : PacketWindowDescriptor) (fdSock clientDataFD : Nat)
    (err : GoError) (c3 : State σ)
    (hc : env.createChannel (env.MaxMessageSize c.impl) c = (.ok (ch, desc, fdSock), c1))
    (hd : unix.Dup { c1 with activeWg := c1.activeWg + 1, tasks := c1.tasks ++ [ch] } desc.FD
      = (.ok clientDataFD, c3))
    (h1 : env.donationError c3 clientDataFD = some err) :
    ChannelHandler env c payloadLen = ((0, some err), c3) := by
  simp [ChannelHandler, hc, hd, AddDonationFD, h1]

/-- The path `handlers.go:97-99`: the second `AddDonationFD` fails. The state
returned is the state right after the first `AddDonationFD`. -/
theorem ChannelHandler_secondDonationError (env : Env σ Inode Srv) (c c1 : State σ)
    (payloadLen : Nat) (ch : Nat) (desc : PacketWindowDescriptor) (fdSock clientDataFD : Nat)
    (err : GoError) (c3 : State σ)
    (hc : env.createChannel (env.MaxMessageSize c.impl) c = (.ok (ch, desc, fdSock), c1))
    (hd : unix.Dup { c1 with activeWg := c1.activeWg + 1, tasks := c1.tasks ++ [ch] } desc.FD
      = (.ok clientDataFD, c3))
    (h1 : env.donationError c3 clientDataFD = none)
    (h2 : env.donationError { c3 with donations := c3.donations ++ [clientDataFD] } fdSock
      = some err) :
    ChannelHandler env c payloadLen =
      ((0, some err), { c3 with donations := c3.donations ++ [clientDataFD] }) := by
  simp [ChannelHandler, hc, hd, AddDonationFD, h1, h2]

/-- The path `handlers.go:100-106`: every step succeeds. -/
theorem ChannelHandler_success (env : Env σ Inode Srv) (c c1 : State σ)
    (payloadLen : Nat) (ch : Nat) (desc : PacketWindowDescriptor) (fdSock clientDataFD : Nat)
    (c3 : State σ) (resp : ChannelResp)
    (hc : env.createChannel (env.MaxMessageSize c.impl) c = (.ok (ch, desc, fdSock), c1))
    (hd : unix.Dup { c1 with activeWg := c1.activeWg + 1, tasks := c1.tasks ++ [ch] } desc.FD
      = (.ok clientDataFD, c3))
    (h1 : env.donationError c3 clientDataFD = none)
    (h2 : env.donationError { c3 with donations := c3.donations ++ [clientDataFD] } fdSock
      = none)
    (hresp : resp = { dataOffset := desc.Offset, dataLength := uint64 desc.Length }) :
    ChannelHandler env c payloadLen =
      ((uint32 (env.channelResp.SizeBytes resp), none),
        marshalInto { c3 with donations := c3.donations ++ [clientDataFD] ++ [fdSock] }
          (uint32 (env.channelResp.SizeBytes resp)) (env.channelResp.MarshalBytes resp)) := by
  subst hresp
  simp [ChannelHandler, hc, hd, AddDonationFD, h1, h2]

/-- The `unix.Dup` failure path releases what `createChannel` acquired: the
handler returns the error of `unix.Dup` with payload length 0, the control
descriptor is closed, the channel is shut down and nothing is queued for
donation. -/
theorem ChannelHandler_dupError_releases (env : Env σ Inode Srv) (c c1 : State σ)
    (payloadLen : Nat) (ch : Nat) (desc : PacketWindowDescriptor) (fdSock : Nat)
    (err : GoError) (c3 : State σ)
    (hc : env.createChannel (env.MaxMessageSize c.impl) c = (.ok (ch, desc, fdSock), c1))
    (hd : unix.Dup { c1 with activeWg := c1.activeWg + 1, tasks := c1.tasks ++ [ch] } desc.FD
      = (.error err, c3)) :
    (ChannelHandler env c payloadLen).1 = (0, some err) ∧
    fdSock ∉ (ChannelHandler env c payloadLen).2.openFDs ∧
    ch ∈ (ChannelHandler env c payloadLen).2.shutdownChans ∧
    (ChannelHandler env c payloadLen).2.donations = c1.donations := by
  rw [ChannelHandler_dupError env c c1 payloadLen ch desc fdSock err c3 hc hd]
  refine ⟨rfl, ?_, ?_, ?_⟩
  · unfold channel.shutdown
    split <;> simp [unix.Close]
  · unfold channel.shutdown
    split
    · next h => exact h
    · simp
  · unfold channel.shutdown
    split <;> rfl

theorem shutdown_fields (c : State σ) (ch : Nat) :
    (channel.shutdown c ch).activeWg = c.activeWg ∧ (channel.shutdown c ch).tasks = c.tasks ∧
    (channel.shutdown c ch).openFDs = c.openFDs ∧ (channel.shutdown c ch).donations = c.donations ∧
    ch ∈ (channel.shutdown c ch).shutdownChans := by
  unfold channel.shutdown
  split
  · next h => exact ⟨rfl, rfl, rfl, rfl, h⟩
  · exact ⟨rfl, rfl, rfl, rfl, by simp⟩

/-- Once `createChannel` has succeeded, `ChannelHandler` has added exactly one
to the wait group and started exactly one goroutine, for the new channel,
whatever happens afterwards. -/
theorem ChannelHandler_spawns_one (env : Env σ Inode Srv) (c c1 : State σ) (payloadLen : Nat)
    (ch : Nat) (desc : PacketWindowDescriptor) (fdSock : Nat)
    (hc : env.createChannel (env.MaxMessageSize c.impl) c = (.ok (ch, desc, fdSock), c1)) :
    (ChannelHandler env c payloadLen).2.activeWg = c1.activeWg + 1 ∧
    (ChannelHandler env c payloadLen).2.tasks = c1.tasks ++ [ch] := by
  rcases hd : unix.Dup { c1 with activeWg := c1.activeWg + 1, tasks := c1.tasks ++ [ch] } desc.FD
    with ⟨res, c3⟩
  cases res with
  | error err =>
    rw [ChannelHandler_dupError env c c1 payloadLen ch desc fdSock err c3 hc hd]
    have h := shutdown_fields
      (unix.Close { c1 with activeWg := c1.activeWg + 1, tasks := c1.tasks ++ [ch] } fdSock) ch
    exact ⟨h.1, h.2.1⟩
  | ok clientDataFD =>
    have h3 := (Dup_ok _ _ _ _ hd).2.2
    cases h1 : env.donationError c3 clientDataFD with
    | some err =>
      rw [ChannelHandler_firstDonationError env c c1 payloadLen ch desc fdSock clientDataFD
        err c3 hc hd h1]
      subst h3
      exact ⟨rfl, rfl⟩
    | none =>
      cases h2 : env.donationError { c3 with donations := c3.donations ++ [clientDataFD] } fdSock
        with
      | some err =>
        rw [ChannelHandler_secondDonationError env c c1 payloadLen ch desc fdSock clientDataFD
          err c3 hc hd h1 h2]
        subst h3
        exact ⟨rfl, rfl⟩
      | none =>
        rw [ChannelHandler_success env c c1 payloadLen ch desc fdSock clientDataFD c3 _ hc hd
          h1 h2 rfl]
        subst h3
        exact ⟨rfl, rfl⟩

/-! ### Dispatch and the echo handler -/

/-- An identifier past the end of the table has no entry. -/
theorem get?_of_length_le (table : List (Option (RPCHandler σ))) (m : MID)
    (h : table.length ≤ m) : table.get? m = none :=
  List.get?_eq_none.mpr h

/-- The dispatcher on an identifier without handler: the error response, and the
state as it was. -/
theorem handleMsg_unsupported (table : List (Option (RPCHandler σ))) (c : State σ) (m : MID)
    (payloadLen : Nat) (h : table.length ≤ m ∨ table.get? m = some none) :
    handleMsg table c m payloadLen = (.error unix.EOPNOTSUPP, c) := by
  have h0 : table.get? m = none ∨ table.get? m = some none :=
    h.imp (get?_of_length_le table m) id
  unfold handleMsg
  rcases h0 with h0 | h0 <;> rw [h0]

/-- The echo handler on a buffer that holds the serialization of `x`. -/
theorem dynamicMsgHandler_echo {MsgDynamic : Type} (m : Marshallable MsgDynamic)
    (s : State σ) (x : MsgDynamic)
    (hbuf : PayloadBuf s (m.SizeBytes x) = m.MarshalBytes x)
    (hrt : m.UnmarshalBytes (m.MarshalBytes x) = x)
    (h32 : m.SizeBytes x < 2 ^ 32) :
    dynamicMsgHandler m s (uint32 (m.SizeBytes x)) =
      ((m.SizeBytes x, none), marshalInto s (m.SizeBytes x) (m.MarshalBytes x)) := by
  simp only [dynamicMsgHandler, uint32_of_lt _ h32, hbuf, hrt]

end Facts

/-! ## The properties of the specification -/

section Claims

variable {σ Inode Srv : Type}

/-- C1: on a connection whose mounted flag is false, a mount request whose path
is not absolute after normalisation with `path.Clean` makes `MountHandler`
return `(0, EINVAL)`; `serverImpl.Mount` is not called (no call is recorded and
the state of the implementation is untouched) and the mounted flag is still
false afterwards. -/
theorem C1_mount_not_absolute_is_EINVAL (env : Env σ Inode Srv) (c : State σ)
    (payloadLen : Nat) (req : MountReq)
    (hreq : env.mountReq.UnmarshalBytes (PayloadBuf c payloadLen) = req)
    (hm : c.mounted = false)
    (hp : filepath.IsAbs (path.Clean req.MountPath) = false) :
    (MountHandler env c payloadLen).1 = (0, some unix.EINVAL) ∧
    (MountHandler env c payloadLen).2.mountCalls = c.mountCalls ∧
    (MountHandler env c payloadLen).2.impl = c.impl ∧
    (MountHandler env c payloadLen).2.mounted = false := by
  rw [MountHandler_notAbs env c payloadLen req hreq hp]
  exact ⟨rfl, rfl, rfl, hm⟩

/-- The request "a/../b" (normalised: "b") on a fresh connection of the test
server is answered with `EINVAL`. -/
theorem C1_mount_not_absolute_is_EINVAL_witness :
    (freshState (none : Option GoString) [97, 47, 46, 46, 47, 98]).mounted = false ∧
    filepath.IsAbs (path.Clean [97, 47, 46, 46, 47, 98]) = false ∧
    (MountHandler testEnv (freshState none [97, 47, 46, 46, 47, 98]) 6).1
      = (0, some unix.EINVAL) ∧
    (MountHandler testEnv (freshState none [97, 47, 46, 46, 47, 98]) 6).2.mountCalls = [] ∧
    (MountHandler testEnv (freshState none [97, 47, 46, 46, 47, 98]) 6).2.impl = none ∧
    (MountHandler testEnv (freshState none [97, 47, 46, 46, 47, 98]) 6).2.mounted = false :=
  ⟨rfl, by decide,
    C1_mount_not_absolute_is_EINVAL testEnv (freshState none [97, 47, 46, 46, 47, 98]) 6
      { MountPath := [97, 47, 46, 46, 47, 98] } (by decide) rfl (by decide)⟩

/-- C2, as stated, fails: on a mounted connection of the test server a request
for the relative path "a" is answered with `EINVAL`, not with `EBUSY`. -/
theorem C2_counterexample :
    ({ freshState (none : Option GoString) [97] with mounted := true } : State _).mounted = true ∧
    (MountHandler testEnv { freshState none [97] with mounted := true } 1).1
      = (0, some unix.EINVAL) ∧
    (MountHandler testEnv { freshState none [97] with mounted := true } 1).1
      ≠ (0, some unix.EBUSY) := by
  decide

/-- C2, amended: on a connection whose mounted flag is true every `MountHandler`
call fails, does not call `serverImpl.Mount` and leaves the flag true; the error
is `EBUSY` when the normalised mount path is absolute and `EINVAL` when it is
not, because the path is validated before the flag is read. -/
theorem C2_mounted_connection_rejects_mount (env : Env σ Inode Srv) (c : State σ)
    (payloadLen : Nat) (req : MountReq)
    (hreq : env.mountReq.UnmarshalBytes (PayloadBuf c payloadLen) = req)
    (hm : c.mounted = true) :
    (MountHandler env c payloadLen).1 =
      (0, some (if filepath.IsAbs (path.Clean req.MountPath) then unix.EBUSY else unix.EINVAL)) ∧
    (MountHandler env c payloadLen).2.mountCalls = c.mountCalls ∧
    (MountHandler env c payloadLen).2.impl = c.impl ∧
    (MountHandler env c payloadLen).2.mounted = true := by
  cases hp : filepath.IsAbs (path.Clean req.MountPath) with
  | false =>
    rw [MountHandler_notAbs env c payloadLen req hreq hp]
    exact ⟨by simp, rfl, rfl, hm⟩
  | true =>
    rw [MountHandler_mounted env c payloadLen req hreq hp hm]
    exact ⟨by simp, rfl, rfl, hm⟩

/-- On a mounted connection of the test server the request "/a" is answered with
`EBUSY`. -/
theorem C2_mounted_connection_rejects_mount_witness :
    ({ freshState (none : Option GoString) [47, 97] with mounted := true } : State _).mounted
      = true ∧
    (MountHandler testEnv { freshState none [47, 97] with mounted := true } 2).1 =
      (0, some (if filepath.IsAbs (path.Clean [47, 97]) then unix.EBUSY else unix.EINVAL)) ∧
    (MountHandler testEnv { freshState none [47, 97] with mounted := true } 2).2.mountCalls
      = [] ∧
    (MountHandler testEnv { freshState none [47, 97] with mounted := true } 2).2.impl = none ∧
    (MountHandler testEnv { freshState none [47, 97] with mounted := true } 2).2.mounted
      = true :=
  ⟨rfl,
    C2_mounted_connection_rejects_mount testEnv
      { freshState none [47, 97] with mounted := true } 2 { MountPath := [47, 97] }
      (by decide) rfl⟩

/-- C3: on a connection whose mounted flag is false, a request with an absolute
mount path for which `serverImpl.Mount` returns a root handle makes
`MountHandler` succeed: `Mount` is called once, for the normalised path; the
flag becomes true; the payload buffer of the communicator holds the
serialization of the `MountResp` made of that root, of
`c.supportedMessages()` and of `serverImpl.MaxMessageSize()`; and the returned
payload length is `uint32(resp.SizeBytes())`, which is `resp.SizeBytes()` itself
as it fits 32 bits. -/
theorem C3_mount_succeeds (env : Env σ Inode Srv) (c : State σ) (payloadLen : Nat)
    (req : MountReq) (root : Inode) (impl1 : σ) (resp : MountResp Inode)
    (hreq : env.mountReq.UnmarshalBytes (PayloadBuf c payloadLen) = req)
    (hm : c.mounted = false)
    (hp : filepath.IsAbs req.MountPath = true)
    (hM : env.Mount c.impl (env.getServer (path.Clean req.MountPath)) = (.ok root, impl1))
    (hresp : resp = { Root := root, SupportedMs := env.supportedMessages,
                      MaxMessageSize := env.MaxMessageSize impl1 })
    (hlen : (env.mountResp.MarshalBytes resp).length = env.mountResp.SizeBytes resp)
    (h32 : env.mountResp.SizeBytes resp < 2 ^ 32) :
    (MountHandler env c payloadLen).1 = (env.mountResp.SizeBytes resp, none) ∧
    (MountHandler env c payloadLen).1.1 = uint32 (env.mountResp.SizeBytes resp) ∧
    (MountHandler env c payloadLen).2.mounted = true ∧
    (MountHandler env c payloadLen).2.mountCalls = c.mountCalls ++ [path.Clean req.MountPath] ∧
    PayloadBuf (MountHandler env c payloadLen).2 (env.mountResp.SizeBytes resp)
      = env.mountResp.MarshalBytes resp := by
  have hp1 : filepath.IsAbs (path.Clean req.MountPath) = true := by
    rw [IsAbs_Clean]; exact hp
  rw [MountHandler_success env c payloadLen req hreq hp1 hm root impl1 hM resp hresp]
  rw [uint32_of_lt _ h32]
  exact ⟨rfl, rfl, rfl, rfl, PayloadBuf_marshalInto _ _ _ hlen⟩

/-- The client of the test (`lisafs.NewClient(clientSocket, "/")`) mounts "/" on
a fresh connection of the test server: the response holds the root with
`ControlFD: 1`, the supported messages and the maximum message size. -/
theorem C3_mount_succeeds_witness :
    (freshState (none : Option GoString) [47]).mounted = false ∧
    filepath.IsAbs [47] = true ∧
    (MountHandler testEnv (freshState none [47]) 1).1 = (7, none) ∧
    (MountHandler testEnv (freshState none [47]) 1).1.1 = uint32 7 ∧
    (MountHandler testEnv (freshState none [47]) 1).2.mounted = true ∧
    (MountHandler testEnv (freshState none [47]) 1).2.mountCalls = [[47]] ∧
    PayloadBuf (MountHandler testEnv (freshState none [47]) 1).2 7 = [1, 64, 4, 1, 2, 3, 4] :=
  ⟨rfl, by decide,
    C3_mount_succeeds testEnv (freshState none [47]) 1 { MountPath := [47] }
      { ControlFD := 1 } (some [47])
      { Root := { ControlFD := 1 }, SupportedMs := [1, 2, 3, 4], MaxMessageSize := 64 }
      (by decide) rfl (by decide) rfl rfl (by decide) (by decide)⟩

/-- C4: for an operation identifier that is not in the handler table (past the
last index, as `MID(len(handlers))`, or at an index without handler), the dispatcher
answers with `EOPNOTSUPP` and leaves the state as it was, so no handler ran and
none is recorded as invoked; `SndRcvMessage` returns exactly `EOPNOTSUPP` and
deserializes no response. -/
theorem C4_unsupported_message_is_EOPNOTSUPP {β : Type} (table : List (Option (RPCHandler σ)))
    (c : State σ) (m : MID) (payloadLen : Nat) (request : List Nat)
    (respUnmarshal : List Nat → β)
    (h : table.length ≤ m ∨ table.get? m = some none) :
    handleMsg table c m payloadLen = (.error unix.EOPNOTSUPP, c) ∧
    (SndRcvMessage table c m payloadLen request respUnmarshal).1 = some unix.EOPNOTSUPP ∧
    (SndRcvMessage table c m payloadLen request respUnmarshal).2.1 = none ∧
    (SndRcvMessage table c m payloadLen request respUnmarshal).2.2.handlerCalls
      = c.handlerCalls := by
  refine ⟨handleMsg_unsupported table c m payloadLen h, ?_⟩
  simp only [SndRcvMessage, handleMsg_unsupported table _ m payloadLen h]
  exact ⟨trivial, trivial, rfl⟩

/-- The call of `TestUnsupportedMessage`: with `lisafs.Mount = 1` and
`lisafs.Channel = 2` the table of the test has 5 entries, and identifier 5, sent
with an empty payload, is answered with `EOPNOTSUPP`. -/
theorem C4_unsupported_message_is_EOPNOTSUPP_witness :
    (handlers 1 2 testEnv sampleDynamic sampleVersion).length ≤ 5 ∧
    (SndRcvMessage (handlers 1 2 testEnv sampleDynamic sampleVersion) (freshState none [])
      5 0 [] (fun _ => ())).1 = some unix.EOPNOTSUPP ∧
    (SndRcvMessage (handlers 1 2 testEnv sampleDynamic sampleVersion) (freshState none [])
      5 0 [] (fun _ => ())).2.2.handlerCalls = [] :=
  have h := C4_unsupported_message_is_EOPNOTSUPP
    (handlers 1 2 testEnv sampleDynamic sampleVersion) (freshState none []) 5 0 []
    (fun _ => ()) (Or.inl (by decide))
  ⟨by decide, h.2.1, h.2.2.2⟩

/-- C5, at two failing inputs. On a fresh connection of the test server
(descriptors 0 to 3 open) `createChannel` returns channel 0 with control
descriptor 4 and `unix.Dup` returns descriptor 5. When the first `AddDonationFD`
fails with `EBADF`, `ChannelHandler` returns `(0, EBADF)` while descriptors 4
and 5 are open and not queued for donation and channel 0 is not shut down. When
the second `AddDonationFD` fails, it returns `(0, EBADF)` while descriptor 4 is
open and not queued for donation and channel 0 is not shut down. In both cases
the goroutine of channel 0 has been started. -/
theorem C5_donation_failure_releases_nothing :
    (refusingEnv.createChannel 64 (freshState none [])).1
      = .ok (0, { FD := 3, Offset := 0, Length := 80 }, 4) ∧
    ((ChannelHandler refusingEnv (freshState none []) 0).1 = (0, some unix.EBADF) ∧
      4 ∈ (ChannelHandler refusingEnv (freshState none []) 0).2.openFDs ∧
      4 ∉ (ChannelHandler refusingEnv (freshState none []) 0).2.donations ∧
      5 ∈ (ChannelHandler refusingEnv (freshState none []) 0).2.openFDs ∧
      5 ∉ (ChannelHandler refusingEnv (freshState none []) 0).2.donations ∧
      0 ∉ (ChannelHandler refusingEnv (freshState none []) 0).2.shutdownChans ∧
      (ChannelHandler refusingEnv (freshState none []) 0).2.tasks = [0]) ∧
    ((ChannelHandler refusingSecondEnv (freshState none []) 0).1 = (0, some unix.EBADF) ∧
      4 ∈ (ChannelHandler refusingSecondEnv (freshState none []) 0).2.openFDs ∧
      4 ∉ (ChannelHandler refusingSecondEnv (freshState none []) 0).2.donations ∧
      (ChannelHandler refusingSecondEnv (freshState none []) 0).2.donations = [5] ∧
      0 ∉ (ChannelHandler refusingSecondEnv (freshState none []) 0).2.shutdownChans ∧
      (ChannelHandler refusingSecondEnv (freshState none []) 0).2.tasks = [0]) := by
  refine ⟨rfl, ?_, ?_⟩ <;> decide

/-- C6: when `createChannel`, `unix.Dup` and both `AddDonationFD` calls succeed,
`ChannelHandler` queues exactly two descriptors for donation, first the
duplicate of the data descriptor of the channel and then the control descriptor,
and the two differ. The payload buffer holds the serialization of the
`ChannelResp` whose `dataOffset` and `dataLength` are the offset and length of
the region `createChannel` made for `serverImpl.MaxMessageSize()`; that length
is at least the maximum message size; and the returned payload length is
`resp.SizeBytes()`. The handler does not read the mounted flag, so this holds in
particular on a mounted connection. -/
theorem C6_channel_created (env : Env σ Inode Srv) (c c1 : State σ) (payloadLen : Nat)
    (ch : Nat) (desc : PacketWindowDescriptor) (fdSock clientDataFD : Nat) (c3 : State σ)
    (resp : ChannelResp)
    (hc : env.createChannel (env.MaxMessageSize c.impl) c = (.ok (ch, desc, fdSock), c1))
    (hok : createChannelOK (env.MaxMessageSize c.impl) desc fdSock c c1 = true)
    (hd : unix.Dup { c1 with activeWg := c1.activeWg + 1, tasks := c1.tasks ++ [ch] } desc.FD
      = (.ok clientDataFD, c3))
    (h1 : env.donationError c3 clientDataFD = none)
    (h2 : env.donationError { c3 with donations := c3.donations ++ [clientDataFD] } fdSock
      = none)
    (hresp : resp = { dataOffset := desc.Offset, dataLength := uint64 desc.Length })
    (hlen : (env.channelResp.MarshalBytes resp).length = env.channelResp.SizeBytes resp)
    (h32 : env.channelResp.SizeBytes resp < 2 ^ 32) :
    (ChannelHandler env c payloadLen).1 = (env.channelResp.SizeBytes resp, none) ∧
    (ChannelHandler env c payloadLen).2.donations = c.donations ++ [clientDataFD, fdSock] ∧
    clientDataFD ≠ fdSock ∧
    PayloadBuf (ChannelHandler env c payloadLen).2 (env.channelResp.SizeBytes resp)
      = env.channelResp.MarshalBytes resp ∧
    resp.dataOffset = desc.Offset ∧
    resp.dataLength = desc.Length ∧
    env.MaxMessageSize c.impl ≤ resp.dataLength := by
  simp only [createChannelOK, Bool.and_eq_true, decide_eq_true_eq] at hok
  obtain ⟨⟨⟨hmax, hint⟩, hopen⟩, hdon⟩ := hok
  obtain ⟨_, hfresh, h3⟩ := Dup_ok _ _ _ _ hd
  have hL : resp.dataLength = desc.Length := by
    rw [hresp]
    exact uint64_of_lt _ (Nat.lt_trans hint (by decide))
  rw [ChannelHandler_success env c c1 payloadLen ch desc fdSock clientDataFD c3 resp hc hd
    h1 h2 hresp, uint32_of_lt _ h32]
  refine ⟨rfl, ?_, ?_, PayloadBuf_marshalInto _ _ _ hlen, by rw [hresp], hL, by rw [hL]; exact hmax⟩
  · subst h3
    simp [marshalInto, hdon]
  · intro heq
    apply hfresh
    rw [heq]
    exact hopen

/-- On a fresh connection of the test server the channel request queues
descriptors 5 (the duplicate of the memory file 3) and 4 (the control
descriptor) and answers with offset 0 and length 80, the maximum message size
being 64. -/
theorem C6_channel_created_witness :
    createChannelOK 64 { FD := 3, Offset := 0, Length := 80 } 4
      (freshState (none : Option GoString) [])
      { freshState (none : Option GoString) [] with openFDs := [4, 0, 1, 2, 3] } = true ∧
    (ChannelHandler testEnv (freshState none []) 0).1 = (2, none) ∧
    (ChannelHandler testEnv (freshState none []) 0).2.donations = [] ++ [5, 4] ∧
    5 ≠ 4 ∧
    PayloadBuf (ChannelHandler testEnv (freshState none []) 0).2 2 = [0, 80] ∧
    ({ dataOffset := 0, dataLength := 80 } : ChannelResp).dataOffset = 0 ∧
    ({ dataOffset := 0, dataLength := 80 } : ChannelResp).dataLength = 80 ∧
    64 ≤ ({ dataOffset := 0, dataLength := 80 } : ChannelResp).dataLength :=
  ⟨by decide,
    C6_channel_created testEnv (freshState none [])
      { freshState (none : Option GoString) [] with openFDs := [4, 0, 1, 2, 3] } 0 0
      { FD := 3, Offset := 0, Length := 80 } 4 5
      { freshState (none : Option GoString) [] with
          openFDs := [5, 4, 0, 1, 2, 3], activeWg := 2, tasks := [0] }
      { dataOffset := 0, dataLength := 80 }
      rfl (by decide) rfl rfl rfl (by decide) (by decide) (by decide)⟩

/-- C8: let the marshalling code of `MsgDynamic` serialize `x` into
`x.SizeBytes()` bytes, fitting 32 bits, from which it deserializes `x` again.
When the payload buffer holds that serialization, `dynamicMsgHandler` returns
the payload length `x.SizeBytes()` and leaves in the buffer a response whose
deserialization is `x`. Sent with `SndRcvMessage` to a table that has the echo
handler at the identifier used, the request comes back without error and the
deserialized response is `x`. -/
theorem C8_echo_round_trip {MsgDynamic : Type} (m : Marshallable MsgDynamic) (c : State σ)
    (x : MsgDynamic)
    (hlen : (m.MarshalBytes x).length = m.SizeBytes x)
    (hrt : m.UnmarshalBytes (m.MarshalBytes x) = x)
    (h32 : m.SizeBytes x < 2 ^ 32) :
    (dynamicMsgHandler m (marshalInto c (uint32 (m.SizeBytes x)) (m.MarshalBytes x))
        (uint32 (m.SizeBytes x))).1 = (m.SizeBytes x, none) ∧
    m.UnmarshalBytes
      (PayloadBuf
        (dynamicMsgHandler m (marshalInto c (uint32 (m.SizeBytes x)) (m.MarshalBytes x))
          (uint32 (m.SizeBytes x))).2
        (m.SizeBytes x)) = x ∧
    (∀ (table : List (Option (RPCHandler σ))) (dynamicMsgID : MID),
      table.get? dynamicMsgID = some (some (dynamicMsgHandler m)) →
      (SndRcvMessage table c dynamicMsgID (uint32 (m.SizeBytes x)) (m.MarshalBytes x)
        m.UnmarshalBytes).1 = none ∧
      (SndRcvMessage table c dynamicMsgID (uint32 (m.SizeBytes x)) (m.MarshalBytes x)
        m.UnmarshalBytes).2.1 = some x) := by
  have hu := uint32_of_lt _ h32
  have hbuf : ∀ s : State σ,
      PayloadBuf (marshalInto s (m.SizeBytes x) (m.MarshalBytes x)) (m.SizeBytes x)
        = m.MarshalBytes x :=
    fun s => PayloadBuf_marshalInto s _ _ hlen
  have hecho := dynamicMsgHandler_echo m (marshalInto c (m.SizeBytes x) (m.MarshalBytes x)) x
    (hbuf c) hrt h32
  refine ⟨?_, ?_, ?_⟩
  · rw [hu] at hecho ⊢
    rw [hecho]
  · rw [hu] at hecho ⊢
    rw [hecho, hbuf, hrt]
  · intro table dynamicMsgID ht
    have hcall := dynamicMsgHandler_echo m
      { marshalInto c (m.SizeBytes x) (m.MarshalBytes x) with
        handlerCalls :=
          (marshalInto c (m.SizeBytes x) (m.MarshalBytes x)).handlerCalls ++ [dynamicMsgID] }
      x (hbuf c) hrt h32
    rw [hu] at hcall
    simp only [SndRcvMessage, handleMsg, ht, hu, hcall]
    exact ⟨trivial, by rw [hbuf, hrt]⟩

/-- The message `[7, 8, 9]`, serialized as its three bytes, comes back from the
echo handler of the test table (identifier 3 when `lisafs.Channel = 2`). -/
theorem C8_echo_round_trip_witness :
    (sampleDynamic.MarshalBytes [7, 8, 9]).length = sampleDynamic.SizeBytes [7, 8, 9] ∧
    sampleDynamic.UnmarshalBytes (sampleDynamic.MarshalBytes [7, 8, 9]) = [7, 8, 9] ∧
    (SndRcvMessage (handlers 1 2 testEnv sampleDynamic sampleVersion)
      (freshState (none : Option GoString) []) 3 (uint32 (sampleDynamic.SizeBytes [7, 8, 9]))
      (sampleDynamic.MarshalBytes [7, 8, 9]) sampleDynamic.UnmarshalBytes).1 = none ∧
    (SndRcvMessage (handlers 1 2 testEnv sampleDynamic sampleVersion)
      (freshState (none : Option GoString) []) 3 (uint32 (sampleDynamic.SizeBytes [7, 8, 9]))
      (sampleDynamic.MarshalBytes [7, 8, 9]) sampleDynamic.UnmarshalBytes).2.1
      = some [7, 8, 9] :=
  ⟨rfl, rfl,
    (C8_echo_round_trip sampleDynamic (freshState (none : Option GoString) []) [7, 8, 9]
      rfl rfl (by decide)).2.2 (handlers 1 2 testEnv sampleDynamic sampleVersion) 3 rfl⟩

/-- C9: once `createChannel` has succeeded, `ChannelHandler` has added one to
`activeWg` and started one goroutine, for the new channel. Whatever
`c.service(ch)` returns, and in whatever state `s` the goroutine resumes, its
body logs a warning exactly when the result is an error that is not a
`flipcall.ShutdownError` (`nil` and shutdown errors log nothing) and then calls
`activeWg.Done()` once: the counter goes down by one, which undoes the one
`Add(1)` of the handler. -/
theorem C9_service_task_logs_and_finishes (env : Env σ Inode Srv) (c c1 : State σ)
    (payloadLen : Nat) (ch : Nat) (desc : PacketWindowDescriptor) (fdSock : Nat)
    (hc : env.createChannel (env.MaxMessageSize c.impl) c = (.ok (ch, desc, fdSock), c1))
    (res : Option GoError) (s : State σ) :
    (ChannelHandler env c payloadLen).2.activeWg = c1.activeWg + 1 ∧
    (ChannelHandler env c payloadLen).2.tasks = c1.tasks ++ [ch] ∧
    (serviceTask ch res s).log =
      s.log ++ (match res with
        | some err => if err = GoError.shutdownError then [] else [Warning.serviceFailed ch err]
        | none => []) ∧
    ((serviceTask ch res s).log ≠ s.log ↔ ∃ err, res = some err ∧ err ≠ GoError.shutdownError) ∧
    (serviceTask ch res s).activeWg = s.activeWg - 1 ∧
    (serviceTask ch res (ChannelHandler env c payloadLen).2).activeWg = c1.activeWg := by
  obtain ⟨hwg, htasks⟩ := ChannelHandler_spawns_one env c c1 payloadLen ch desc fdSock hc
  have hlog : (serviceTask ch res s).log =
      s.log ++ (match res with
        | some err => if err = GoError.shutdownError then [] else [Warning.serviceFailed ch err]
        | none => []) := by
    cases res with
    | none => simp [serviceTask]
    | some err => cases err <;> simp [serviceTask, isShutdownError, log.Warningf]
  have hdone : ∀ t : State σ, (serviceTask ch res t).activeWg = t.activeWg - 1 := by
    intro t
    cases res with
    | none => simp [serviceTask]
    | some err => cases err <;> simp [serviceTask, isShutdownError, log.Warningf]
  refine ⟨hwg, htasks, hlog, ?_, hdone s, ?_⟩
  · rw [hlog]
    cases res with
    | none => simp
    | some err => cases err <;> simp
  · rw [hdone, hwg]
    omega

/-- On a fresh connection of the test server (wait group at 1) the channel
request brings the wait group to 2 and starts the goroutine of channel 0; when
`c.service` returns `EBADF` the goroutine logs it and brings the wait group back
to 1. -/
theorem C9_service_task_logs_and_finishes_witness :
    (ChannelHandler testEnv (freshState none []) 0).2.activeWg = 1 + 1 ∧
    (ChannelHandler testEnv (freshState none []) 0).2.tasks = [] ++ [0] ∧
    (serviceTask 0 (some unix.EBADF) (ChannelHandler testEnv (freshState none []) 0).2).log
      = [Warning.serviceFailed 0 unix.EBADF] ∧
    (serviceTask 0 (some unix.EBADF) (ChannelHandler testEnv (freshState none []) 0).2).activeWg
      = 1 := by
  have h := C9_service_task_logs_and_finishes testEnv (freshState none [])
    { freshState (none : Option GoString) [] with openFDs := [4, 0, 1, 2, 3] } 0 0
    { FD := 3, Offset := 0, Length := 80 } 4 rfl (some unix.EBADF)
    (ChannelHandler testEnv (freshState none []) 0).2
  exact ⟨h.1, h.2.1, by decide, h.2.2.2.2.2⟩

/-- C10: a `MountHandler` call changes the mounted flag only when it returns
success. A successful return means the flag was false and is now true. A failing
return has payload length 0 and leaves the flag as it was, and its error is
`EINVAL` (normalised path not absolute), `EBUSY` (path absolute, already
mounted) or the very error `serverImpl.Mount` returned. After a failure of
`serverImpl.Mount` the same request can be retried: if `Mount` then returns a
root, the second call succeeds and sets the flag. -/
theorem C10_mounted_flag_changes_only_on_success (env : Env σ Inode Srv) (c : State σ)
    (payloadLen : Nat) (req : MountReq)
    (hreq : env.mountReq.UnmarshalBytes (PayloadBuf c payloadLen) = req) :
    ((MountHandler env c payloadLen).2.mounted ≠ c.mounted →
        (MountHandler env c payloadLen).1.2 = none) ∧
    ((MountHandler env c payloadLen).1.2 = none →
        c.mounted = false ∧ (MountHandler env c payloadLen).2.mounted = true) ∧
    (∀ err, (MountHandler env c payloadLen).1.2 = some err →
        (MountHandler env c payloadLen).1.1 = 0 ∧
        (MountHandler env c payloadLen).2.mounted = c.mounted ∧
        ((filepath.IsAbs (path.Clean req.MountPath) = false ∧ err = unix.EINVAL) ∨
         (filepath.IsAbs (path.Clean req.MountPath) = true ∧ c.mounted = true ∧
            err = unix.EBUSY) ∨
         (filepath.IsAbs (path.Clean req.MountPath) = true ∧ c.mounted = false ∧
            (env.Mount c.impl (env.getServer (path.Clean req.MountPath))).1 = .error err))) ∧
    (∀ (err : GoError) (impl1 : σ) (root : Inode) (impl2 : σ),
        filepath.IsAbs (path.Clean req.MountPath) = true → c.mounted = false →
        env.Mount c.impl (env.getServer (path.Clean req.MountPath)) = (.error err, impl1) →
        env.Mount impl1 (env.getServer (path.Clean req.MountPath)) = (.ok root, impl2) →
        (MountHandler env c payloadLen).1 = (0, some err) ∧
        (MountHandler env c payloadLen).2.mounted = false ∧
        (MountHandler env (MountHandler env c payloadLen).2 payloadLen).1.2 = none ∧
        (MountHandler env (MountHandler env c payloadLen).2 payloadLen).2.mounted = true) := by
  cases hp : filepath.IsAbs (path.Clean req.MountPath) with
  | false =>
    rw [MountHandler_notAbs env c payloadLen req hreq hp]
    refine ⟨fun h => absurd rfl h, fun h => by simp at h, ?_, ?_⟩
    · intro err h
      have he : unix.EINVAL = err := by simpa using h
      exact ⟨rfl, rfl, Or.inl ⟨rfl, he.symm⟩⟩
    · intro _ _ _ _ h
      simp at h
  | true =>
    cases hm : c.mounted with
    | true =>
      rw [MountHandler_mounted env c payloadLen req hreq hp hm]
      refine ⟨fun h => absurd hm h, fun h => by simp at h, ?_, ?_⟩
      · intro err h
        have he : unix.EBUSY = err := by simpa using h
        exact ⟨rfl, hm, Or.inr (Or.inl ⟨rfl, rfl, he.symm⟩)⟩
      · intro _ _ _ _ _ h
        simp at h
    | false =>
      rcases hM : env.Mount c.impl (env.getServer (path.Clean req.MountPath)) with ⟨res, impl1⟩
      cases res with
      | error e =>
        rw [MountHandler_mountError env c payloadLen req hreq hp hm e impl1 hM]
        refine ⟨fun h => absurd hm h, fun h => by simp at h, ?_, ?_⟩
        · intro err h
          have he : e = err := by simpa using h
          exact ⟨rfl, hm, Or.inr (Or.inr ⟨rfl, rfl, by rw [he]⟩)⟩
        · intro err impl1a root impl2 _ _ h1 h2
          have hx : e = err ∧ impl1 = impl1a := by simpa using h1
          obtain ⟨he, hi⟩ := hx
          subst he
          subst hi
          have hreq2 : env.mountReq.UnmarshalBytes
              (PayloadBuf
                { c with mountCalls := c.mountCalls ++ [path.Clean req.MountPath], impl := impl1 }
                payloadLen) = req := hreq
          rw [MountHandler_success env _ payloadLen req hreq2 hp hm root impl2 h2 _ rfl]
          exact ⟨rfl, hm, rfl, rfl⟩
      | ok root =>
        rw [MountHandler_success env c payloadLen req hreq hp hm root impl1 hM _ rfl]
        refine ⟨fun _ => rfl, fun _ => ⟨rfl, rfl⟩, ?_, ?_⟩
        · intro err h
          simp at h
        · intro _ _ _ _ _ _ h
          simp at h

/-- With the server implementation `retryServer`, whose `Mount` fails once, the
first mount of "/" fails with that error and leaves the flag false, and the
second succeeds. -/
theorem C10_mounted_flag_changes_only_on_success_witness :
    (MountHandler retryEnv (freshState 0 [47]) 1).1 = (0, some (.errno 5)) ∧
    (MountHandler retryEnv (freshState 0 [47]) 1).2.mounted = false ∧
    (MountHandler retryEnv (MountHandler retryEnv (freshState 0 [47]) 1).2 1).1.2 = none ∧
    (MountHandler retryEnv (MountHandler retryEnv (freshState 0 [47]) 1).2 1).2.mounted
      = true :=
  (C10_mounted_flag_changes_only_on_success retryEnv (freshState 0 [47]) 1
    { MountPath := [47] } (by decide)).2.2.2 (.errno 5) 1 { ControlFD := 1 } 2
    (by decide) rfl rfl rfl

end Claims

end Lisafs
